import Mathlib

/-!
Verification of the deterministic vectorization core of `vectome`
(`src/vectome/vectorize.py`): the 64-bit hash mixer, the bucket/sign
derivation, the CountSketch feature-hashing vectorizer, the
landmark-similarity vectorizer, the random-projection step and the
dispatch pipeline.

Machine integers are modelled as `Nat` with explicit masking by
`0xFFFFFFFFFFFFFFFF` (64-bit) or `0xFFFFFFFF` (32-bit), matching the
Python source which masks explicitly.  The floating-point vector is
modelled with exact arithmetic: the accumulation phase over `Int`
(the Python code only ever adds `±1.0`, which is exact in IEEE-754),
and the L2 normalization over `ℝ`.
-/

set_option maxRecDepth 100000

namespace Vectome

def U64 : Nat := 0xFFFFFFFFFFFFFFFF
def U32 : Nat := 0xFFFFFFFF

/-- Embedding of `_mix_u64` (vectorize.py lines 18-41): xorshift/splitmix-like
64-bit finalizer with two odd multiplicative constants. -/
def mix_u64 (x0 : Nat) : Nat :=
  let x1 := x0 &&& U64
  let x2 := x1 ^^^ (x1 >>> 33)
  let x3 := (x2 * 0xff51afd7ed558ccd) &&& U64
  let x4 := x3 ^^^ (x3 >>> 33)
  let x5 := (x4 * 0xc4ceb9fe1a85ec53) &&& U64
  let x6 := x5 ^^^ (x5 >>> 33)
  x6 &&& U64

/-- Embedding of `_bucket_index` (vectorize.py lines 44-63): XOR with
`(salt+1) * 0x9E3779B97F4A7C15`, mask to 64 bits, reduce modulo `dim`. -/
def bucket_index (h : Nat) (dim : Nat) (salt : Nat) : Nat :=
  ((h ^^^ ((salt + 1) * 0x9E3779B97F4A7C15)) &&& U64) % dim

/-! ### SHA-1

`_bucket_sign` calls `hashlib.sha1`; we embed the SHA-1 standard
(FIPS 180-4) over byte lists, since the library routine is external to
the repository. -/

/-- 32-bit left rotation. -/
def rotl32 (x : Nat) (n : Nat) : Nat :=
  (((x <<< n) ||| (x >>> (32 - n)))) &&& U32

/-- Little-endian byte encoding of `x` on `len` bytes
(Python `int.to_bytes(len, "little")`). -/
def toBytesLE (x : Nat) (len : Nat) : List Nat :=
  (List.range len).map (fun i => (x >>> (8 * i)) &&& 0xFF)

/-- Big-endian byte encoding of `x` on `len` bytes. -/
def toBytesBE (x : Nat) (len : Nat) : List Nat :=
  (List.range len).map (fun i => (x >>> (8 * (len - 1 - i))) &&& 0xFF)

/-- SHA-1 message padding: append `0x80`, zero bytes to a length of
56 mod 64, then the 64-bit big-endian bit length. -/
def sha1pad (msg : List Nat) : List Nat :=
  let ml := msg.length
  let k := (119 - ml % 64) % 64
  msg ++ [0x80] ++ List.replicate k 0 ++ toBytesBE (8 * ml) 8

/-- The sixteen 32-bit big-endian words of a 64-byte block. -/
def wordsOfBlock (b : List Nat) : List Nat :=
  (List.range 16).map (fun i =>
    (b.getD (4 * i) 0) <<< 24 ||| (b.getD (4 * i + 1) 0) <<< 16 |||
    (b.getD (4 * i + 2) 0) <<< 8 ||| (b.getD (4 * i + 3) 0))

/-- Message-schedule extension from 16 to 80 words. -/
def sha1extend (ws0 : List Nat) : List Nat :=
  (List.range 64).foldl
    (fun ws _ =>
      let n := ws.length
      ws ++ [rotl32 ((ws.getD (n - 3) 0) ^^^ (ws.getD (n - 8) 0) ^^^
                     (ws.getD (n - 14) 0) ^^^ (ws.getD (n - 16) 0)) 1])
    ws0

/-- One SHA-1 round on the state `(a, b, c, d, e)`. -/
def sha1round (t : Nat) (w : Nat) :
    Nat × Nat × Nat × Nat × Nat → Nat × Nat × Nat × Nat × Nat :=
  fun st =>
    let a := st.1; let b := st.2.1; let c := st.2.2.1
    let d := st.2.2.2.1; let e := st.2.2.2.2
    let f :=
      if t < 20 then (b &&& c) ||| ((b ^^^ U32) &&& d)
      else if t < 40 then b ^^^ c ^^^ d
      else if t < 60 then (b &&& c) ||| (b &&& d) ||| (c &&& d)
      else b ^^^ c ^^^ d
    let k :=
      if t < 20 then 0x5A827999
      else if t < 40 then 0x6ED9EBA1
      else if t < 60 then 0x8F1BBCDC
      else 0xCA62C1D6
    let temp := (rotl32 a 5 + f + e + k + w) &&& U32
    (temp, a, rotl32 b 30, c, d)

/-- SHA-1 compression of one 64-byte block into the running hash
(five 32-bit words). -/
def sha1block (h : List Nat) (block : List Nat) : List Nat :=
  let ws := sha1extend (wordsOfBlock block)
  let st0 := (h.getD 0 0, h.getD 1 0, h.getD 2 0, h.getD 3 0, h.getD 4 0)
  let st := (List.range 80).foldl (fun s t => sha1round t (ws.getD t 0) s) st0
  [(h.getD 0 0 + st.1) &&& U32,
   (h.getD 1 0 + st.2.1) &&& U32,
   (h.getD 2 0 + st.2.2.1) &&& U32,
   (h.getD 3 0 + st.2.2.2.1) &&& U32,
   (h.getD 4 0 + st.2.2.2.2) &&& U32]

/-- Split a byte list into 64-byte chunks; `fuel` bounds the recursion
(any `fuel ≥ l.length` is enough, each step consumes 64 bytes). -/
def chunks64 : Nat → List Nat → List (List Nat)
  | 0, _ => []
  | _, [] => []
  | fuel + 1, l => l.take 64 :: chunks64 fuel (l.drop 64)

def sha1init : List Nat :=
  [0x67452301, 0xEFCDAB89, 0x98BADCFE, 0x10325476, 0xC3D2E1F0]

/-- SHA-1 digest of a byte list, as five 32-bit words. -/
def sha1words (msg : List Nat) : List Nat :=
  let padded := sha1pad msg
  (chunks64 padded.length padded).foldl sha1block sha1init

/-- SHA-1 digest of a byte list as the big-endian 160-bit natural number,
i.e. Python's `int(hashlib.sha1(b).hexdigest(), 16)`. -/
def sha1Nat (msg : List Nat) : Nat :=
  (sha1words msg).foldl (fun acc w => acc * 0x100000000 + w) 0

/-- Embedding of `_bucket_sign` (vectorize.py lines 66-73): sign is the
least-significant bit of `SHA1(h.to_bytes(8, "little") + salt.to_bytes(4,
"little"))`. -/
def bucket_sign (h : Nat) (salt : Nat) : Int :=
  let b := toBytesLE h 8 ++ toBytesLE salt 4
  if sha1Nat b &&& 1 = 1 then 1 else -1

/-! ### CountSketch feature-hashing vectorizer -/

/-- One read-modify-write `vector[idx] += s` on a list
(out-of-range `idx` leaves the list unchanged, but the callers below
only produce in-range indices). -/
def bump (v : List Int) (idx : Nat) (s : Int) : List Int :=
  v.set idx (v.getD idx 0 + s)

/-- The inner loop of `_vectorize_countsketch` (vectorize.py lines 133-139)
for one fingerprint `h`: for each salt `i` in `0 .. nf-1` compute
`hk = mix(base ^ i)`, `idx = bucket_index(hk, dim, i)`,
`sign = bucket_sign(hk, i)` and add the sign to `vector[idx]`. -/
def addHash (dim nf : Nat) (v : List Int) (h : Nat) : List Int :=
  (List.range nf).foldl
    (fun w i =>
      bump w (bucket_index (mix_u64 ((h &&& U64) ^^^ i)) dim i)
             (bucket_sign (mix_u64 ((h &&& U64) ^^^ i)) i))
    v

/-- The signed contribution of fingerprint `h` with salt `i` to coordinate
`j` of the CountSketch vector (the summand of the accumulation loop). -/
def contrib (dim : Nat) (h : Nat) (i : Nat) (j : Nat) : Int :=
  if bucket_index (mix_u64 ((h &&& U64) ^^^ i)) dim i = j then
    bucket_sign (mix_u64 ((h &&& U64) ^^^ i)) i
  else 0

/-- Total contribution of fingerprint `h` to coordinate `j`, summed over
all `num_hash_fns` salts. -/
def hashTotal (dim nf : Nat) (h : Nat) (j : Nat) : Int :=
  ((List.range nf).map (fun i => contrib dim h i j)).sum

/-- The accumulation phase of `_vectorize_countsketch`
(vectorize.py lines 131-139): a zero vector of length `dim`, then the
signed unit contributions of every fingerprint of the sketch, in
iteration order. -/
def countsketchAcc (hashes : List Nat) (dim nf : Nat) : List Int :=
  hashes.foldl (addHash dim nf) (List.replicate dim 0)

/-- Squared L2 norm of the accumulated vector; the Python code computes
`np.linalg.norm(vector)` = its square root. -/
def l2normSq (v : List Int) : Int :=
  (v.map (fun x => x * x)).sum

/-- The normalization step of `_vectorize_countsketch`
(vectorize.py lines 141-146) as a relation between the accumulated
integer vector of a sketch and the final real-valued vector: when the
norm is strictly positive every coordinate is divided by it, otherwise
the vector is returned unchanged. -/
def countsketchNormalized (hashes : List Nat) (dim nf : Nat) (w : List ℝ) : Prop :=
  (0 < l2normSq (countsketchAcc hashes dim nf) →
    w = (countsketchAcc hashes dim nf).map
      (fun x : Int => (x : ℝ) / Real.sqrt ((l2normSq (countsketchAcc hashes dim nf) : ℤ) : ℝ))) ∧
  (¬ 0 < l2normSq (countsketchAcc hashes dim nf) →
    w = (countsketchAcc hashes dim nf).map (fun x : Int => (x : ℝ)))

/-- Embedding of `_vectorize_countsketch` at the level of a sourmash
sketch (vectorize.py line 133): the loop iterates over
`query_mh.hashes.keys()`, i.e. over the fingerprint keys of the
fingerprint→abundance mapping, never reading the abundance values. -/
def vectorize_countsketch (sketch : List (Nat × Int)) (dim nf : Nat) : List Int :=
  countsketchAcc (sketch.map Prod.fst) dim nf

/-- Embedding of the parameter handling of `_vectorize_countsketch`
(vectorize.py lines 93-131): `dim` defaults to 4096 when `None` or `0`
(Python `dim = dim or 4096` — `0` is falsy); `np.zeros((dim,))` raises
`ValueError` for a negative `dim`; `range(num_hash_fns)` is empty for
`num_hash_fns <= 0` (Python range semantics, matched by `Int.toNat`).
No parameter validation is performed by the source. -/
def vectorize_countsketchE (hashes : List Nat) (dim : Option Int)
    (num_hash_fns : Int) : Except String (List Int) :=
  let d : Int :=
    match dim with
    | none => 4096
    | some d0 => if d0 = 0 then 4096 else d0
  if d < 0 then .error "negative dimensions are not allowed"
  else .ok (countsketchAcc hashes d.toNat num_hash_fns.toNat)

/-! ### Landmark-similarity vectorizer -/

/-- Embedding of `_vectorize_landmark` (vectorize.py lines 76-90): the
returned vector is `[query_mh.similarity(lm) for lm in landmark_mh]`.
The sketch type and the similarity operation of the external sketching
engine are abstract parameters; similarity scores are modelled as exact
rationals. -/
def vectorize_landmark {S L : Type} (sim : S → L → ℚ) (query : S)
    (landmarks : List L) : List ℚ :=
  landmarks.map (sim query)

/-! ### Pipeline dispatch and projection -/

/-- Observable events of one `vectorize` call, used to state ordering
properties of the pipeline. -/
inductive PipelineEvent (Q : Type) where
  | resolveSketch (q : Q)
  | dispatch (method : String)
  | vectorized (q : Q)
  | error (msg : String)
  deriving DecidableEq

/-- Embedding of the control flow of `vectorize`
(vectorize.py lines 149-186): all query identifiers are resolved to
sketches first (`genome_info` / `query_mh` list comprehensions), then
the method dispatch either selects a vectorizer, which is applied per
query, or raises `ValueError` for an unknown method name. -/
def vectorizeTrace {Q : Type} (queries : List Q) (method : String) :
    List (PipelineEvent Q) :=
  (queries.map PipelineEvent.resolveSketch) ++
    (if method = "landmark" ∨ method = "countsketch" then
      PipelineEvent.dispatch method :: queries.map PipelineEvent.vectorized
    else
      [PipelineEvent.error
        ("Vectorization method=\x27" ++ method ++ "\x27 is not implemented.")])

/-- Matrix-vector batch product `vectors @ projector` over exact
rationals: row `i` of the result has entries
`Σ_k vectors[i][k] * projector[k][j]`. -/
def matMulRow (row : List ℚ) (projector : List (List ℚ)) (cols : Nat) : List ℚ :=
  (List.range cols).map (fun j =>
    ((List.range projector.length).map
      (fun k => row.getD k 0 * (projector.getD k []).getD j 0)).sum)

/-- Embedding of the projection branch of `vectorize`
(vectorize.py lines 188-199): a fresh generator is created from `seed`
alone (`default_rng(seed=seed)`), a `D × projection` Gaussian matrix is
drawn from it, and the stacked batch is multiplied by that matrix.
`rngNormal` abstracts numpy's seeded generator (a deterministic
function of the seed and the requested shape, per numpy's contract);
`globalRngState` models ambient process-global randomness state, which
the source never reads. -/
def projectBatch {G : Type} (rngNormal : Int → Nat → Nat → List (List ℚ))
    (_globalRngState : G) (vectors : List (List ℚ)) (projection : Nat)
    (seed : Int) : List (List ℚ) :=
  let projector := rngNormal seed (vectors.headD []).length projection
  vectors.map (fun row => matMulRow row projector projection)

/-- SHA-1 self-test: digest of the empty message (standard test vector). -/
theorem sha1_empty_vector :
    sha1Nat [] = 0xda39a3ee5e6b4b0d3255bfef95601890afd80709 := by decide

/-- SHA-1 self-test: digest of `"abc"` (standard test vector). -/
theorem sha1_abc_vector :
    sha1Nat [0x61, 0x62, 0x63] =
      0xa9993e364706816aba3e25717850c26c9cd0d89d := by decide

/-- Concrete evaluation of the accumulation phase on the doctest input
of `_vectorize_countsketch` (fingerprints `{0x1234, 0xBEEF}`, `dim=16`,
`num_hash_fns=3`). -/
theorem countsketchAcc_doctest :
    countsketchAcc [0x1234, 0xBEEF] 16 3 =
      [-1, 0, 0, 0, -1, 0, 0, 0, 0, 0, -1, 0, 0, 1, 0, 0] := by decide

/-! ### Helper lemmas: list indexing and the accumulation loop -/

theorem getD_of_lt {α : Type} (v : List α) (j : Nat) (d : α) (h : j < v.length) :
    v.getD j d = v[j] := by
  rw [List.getD_eq_getElem?_getD, List.getElem?_eq_getElem h]
  rfl

theorem bump_length (v : List Int) (idx : Nat) (s : Int) :
    (bump v idx s).length = v.length :=
  List.length_set ..

theorem bump_getD (v : List Int) (idx : Nat) (s : Int) (j : Nat)
    (hj : j < v.length) (hidx : idx < v.length) :
    (bump v idx s).getD j 0 = v.getD j 0 + if idx = j then s else 0 := by
  have hj' : j < (bump v idx s).length := by rw [bump_length]; exact hj
  rw [getD_of_lt _ _ _ hj', getD_of_lt _ _ _ hj]
  unfold bump at hj' ⊢
  rw [List.getElem_set]
  by_cases h : idx = j
  · subst h
    rw [if_pos rfl, if_pos rfl, getD_of_lt _ _ _ hidx]
  · rw [if_neg h, if_neg h, add_zero]

theorem foldl_bump_length (l : List Nat) (F : Nat → Nat) (G : Nat → Int)
    (v : List Int) :
    (l.foldl (fun w i => bump w (F i) (G i)) v).length = v.length := by
  induction l generalizing v with
  | nil => rfl
  | cons a t ih =>
    simp only [List.foldl_cons]
    rw [ih, bump_length]

theorem foldl_bump_getD (l : List Nat) (F : Nat → Nat) (G : Nat → Int)
    (v : List Int) (j : Nat) (hj : j < v.length)
    (hF : ∀ i ∈ l, F i < v.length) :
    (l.foldl (fun w i => bump w (F i) (G i)) v).getD j 0 =
      v.getD j 0 + (l.map (fun i => if F i = j then G i else 0)).sum := by
  induction l generalizing v with
  | nil => simp
  | cons a t ih =>
    simp only [List.foldl_cons, List.map_cons, List.sum_cons]
    rw [ih (bump v (F a) (G a)) (by rw [bump_length]; exact hj)
      (fun i hi => by rw [bump_length]; exact hF i (List.mem_cons_of_mem a hi)),
      bump_getD v (F a) (G a) j hj (hF a (List.mem_cons_self a t))]
    ring

theorem addHash_length (dim nf : Nat) (v : List Int) (h : Nat) :
    (addHash dim nf v h).length = v.length :=
  foldl_bump_length (List.range nf)
    (fun i => bucket_index (mix_u64 ((h &&& U64) ^^^ i)) dim i)
    (fun i => bucket_sign (mix_u64 ((h &&& U64) ^^^ i)) i) v

theorem bucket_index_lt (h dim salt : Nat) (hd : 0 < dim) :
    bucket_index h dim salt < dim :=
  Nat.mod_lt _ hd

theorem addHash_getD (dim nf : Nat) (v : List Int) (h : Nat) (j : Nat)
    (hd : 0 < dim) (hv : v.length = dim) (hj : j < v.length) :
    (addHash dim nf v h).getD j 0 =
      v.getD j 0 + hashTotal dim nf h j := by
  have := foldl_bump_getD (List.range nf)
    (fun i => bucket_index (mix_u64 ((h &&& U64) ^^^ i)) dim i)
    (fun i => bucket_sign (mix_u64 ((h &&& U64) ^^^ i)) i) v j hj
    (fun i _ => by rw [hv]; exact bucket_index_lt _ _ _ hd)
  exact this

theorem foldl_addHash_length (hashes : List Nat) (dim nf : Nat) (v : List Int) :
    (hashes.foldl (addHash dim nf) v).length = v.length := by
  induction hashes generalizing v with
  | nil => rfl
  | cons a t ih =>
    simp only [List.foldl_cons]
    rw [ih, addHash_length]

theorem countsketchAcc_length (hashes : List Nat) (dim nf : Nat) :
    (countsketchAcc hashes dim nf).length = dim := by
  unfold countsketchAcc
  rw [foldl_addHash_length, List.length_replicate]

theorem foldl_addHash_getD (hashes : List Nat) (dim nf : Nat) (v : List Int)
    (hd : 0 < dim) (hv : v.length = dim) (j : Nat) (hj : j < dim) :
    (hashes.foldl (addHash dim nf) v).getD j 0 =
      v.getD j 0 + (hashes.map (fun h => hashTotal dim nf h j)).sum := by
  induction hashes generalizing v with
  | nil => simp
  | cons a t ih =>
    simp only [List.foldl_cons, List.map_cons, List.sum_cons]
    rw [ih (addHash dim nf v a) (by rw [addHash_length]; exact hv),
      addHash_getD dim nf v a j hd hv (by rw [hv]; exact hj)]
    ring

theorem countsketchAcc_getD (hashes : List Nat) (dim nf : Nat) (hd : 0 < dim)
    (j : Nat) (hj : j < dim) :
    (countsketchAcc hashes dim nf).getD j 0 =
      (hashes.map (fun h => hashTotal dim nf h j)).sum := by
  unfold countsketchAcc
  rw [foldl_addHash_getD hashes dim nf (List.replicate dim 0) hd
      (List.length_replicate ..) j hj,
    getD_of_lt _ _ _ (by rw [List.length_replicate]; exact hj)]
  simp

/-- The accumulated CountSketch vector is invariant under permutation of
the fingerprint list: each coordinate is a commutative sum of per-hash
contributions. -/
theorem countsketchAcc_perm (l1 l2 : List Nat) (dim nf : Nat)
    (hp : l1.Perm l2) :
    countsketchAcc l1 dim nf = countsketchAcc l2 dim nf := by
  rcases Nat.eq_zero_or_pos dim with hd | hd
  · subst hd
    have h1 := countsketchAcc_length l1 0 nf
    have h2 := countsketchAcc_length l2 0 nf
    rw [List.length_eq_zero] at h1 h2
    rw [h1, h2]
  · apply List.ext_getElem
      (by rw [countsketchAcc_length, countsketchAcc_length])
    intro j hj1 hj2
    have hj : j < dim := by rwa [countsketchAcc_length] at hj1
    rw [← getD_of_lt _ _ (0:Int) hj1, ← getD_of_lt _ _ (0:Int) hj2,
      countsketchAcc_getD l1 dim nf hd j hj,
      countsketchAcc_getD l2 dim nf hd j hj]
    exact List.Perm.sum_eq (hp.map _)

/-! ### Helper lemmas: L2 normalization over the reals -/

theorem l2normSq_cons (a : Int) (t : List Int) :
    l2normSq (a :: t) = a * a + l2normSq t := by
  simp [l2normSq]

theorem l2normSq_nonneg (v : List Int) : 0 ≤ l2normSq v := by
  induction v with
  | nil => simp [l2normSq]
  | cons a t ih =>
    rw [l2normSq_cons]
    exact add_nonneg (mul_self_nonneg a) ih

theorem sum_sq_cast (v : List Int) :
    (v.map (fun x : Int => (x : ℝ) ^ 2)).sum = ((l2normSq v : ℤ) : ℝ) := by
  induction v with
  | nil => simp [l2normSq]
  | cons a t ih =>
    rw [List.map_cons, List.sum_cons, ih, l2normSq_cons]
    push_cast
    ring

theorem sum_map_div (v : List Int) (c : ℝ) :
    (v.map (fun x : Int => (x : ℝ) ^ 2 / c)).sum =
      (v.map (fun x : Int => (x : ℝ) ^ 2)).sum / c := by
  induction v with
  | nil => simp
  | cons a t ih =>
    rw [List.map_cons, List.sum_cons, ih, List.map_cons, List.sum_cons, add_div]

/-- The normalized CountSketch vector has Euclidean norm exactly 1
whenever the accumulated vector is nonzero. -/
theorem normalized_unit_norm (v : List Int) (hS : 0 < l2normSq v) :
    Real.sqrt
      (((v.map (fun x : Int => (x : ℝ) / Real.sqrt ((l2normSq v : ℤ) : ℝ))).map
        (fun x : ℝ => x ^ 2)).sum) = 1 := by
  have hS0 : (0 : ℝ) < ((l2normSq v : ℤ) : ℝ) := by exact_mod_cast hS
  have hsq : Real.sqrt ((l2normSq v : ℤ) : ℝ) ^ 2 = ((l2normSq v : ℤ) : ℝ) :=
    Real.sq_sqrt hS0.le
  rw [List.map_map]
  have hfun :
      ((fun x : ℝ => x ^ 2) ∘ fun x : Int => (x : ℝ) / Real.sqrt ((l2normSq v : ℤ) : ℝ)) =
        fun x : Int => (x : ℝ) ^ 2 / ((l2normSq v : ℤ) : ℝ) := by
    funext x
    simp only [Function.comp, div_pow, hsq]
  rw [hfun, sum_map_div, sum_sq_cast, div_self hS0.ne']
  exact Real.sqrt_one

/-- The `countsketchNormalized` doctest instance: the fingerprint set
`{0x1234, 0xBEEF}` with `dim = 16`, `num_hash_fns = 3` normalizes to the
expected doctest vector (vectorize.py lines 115-125). -/
theorem countsketchNormalized_doctest :
    countsketchNormalized [0x1234, 0xBEEF] 16 3
      [-(1/2), 0, 0, 0, -(1/2), 0, 0, 0, 0, 0, -(1/2), 0, 0, 1/2, 0, 0] := by
  unfold countsketchNormalized
  rw [countsketchAcc_doctest]
  constructor
  · intro _
    have h4 : ((l2normSq [-1, 0, 0, 0, -1, 0, 0, 0, 0, 0, -1, 0, 0, 1, 0, 0] : ℤ) : ℝ) = 4 := by
      norm_num [l2normSq]
    rw [h4, show (4 : ℝ) = 2 ^ 2 by norm_num,
      Real.sqrt_sq (by norm_num : (0:ℝ) ≤ 2)]
    norm_num
  · intro hle
    exact absurd
      (by decide : (0:ℤ) < l2normSq [-1, 0, 0, 0, -1, 0, 0, 0, 0, 0, -1, 0, 0, 1, 0, 0])
      hle

/-- Any fixed point of `addHash` with zero salts: with `num_hash_fns = 0`
the inner loop body never runs. -/
theorem foldl_addHash_zero_nf (hashes : List Nat) (dim : Nat) (v : List Int) :
    hashes.foldl (addHash dim 0) v = v := by
  induction hashes generalizing v with
  | nil => rfl
  | cons a t ih =>
    simp only [List.foldl_cons]
    rw [show addHash dim 0 v a = v from rfl, ih]

theorem l2normSq_replicate_zero (d : Nat) :
    l2normSq (List.replicate d 0) = 0 := by
  induction d with
  | zero => rfl
  | succ n ih =>
    rw [List.replicate_succ, l2normSq_cons, ih]
    ring

theorem bucket_sign_eq (h salt : Nat) :
    bucket_sign h salt =
      if sha1Nat (toBytesLE h 8 ++ toBytesLE salt 4) &&& 1 = 1 then 1 else -1 :=
  rfl

/-! ### Claim theorems -/

/-- C1: For the fingerprint set `{0x1234, 0xBEEF}` with `dim = 16` and
`num_hash_fns = 3`, the feature-hashing vectorizer returns the vector
`[-1/2, 0, 0, 0, -1/2, 0, 0, 0, 0, 0, -1/2, 0, 0, 1/2, 0, 0]`: length 16,
Euclidean norm exactly 1, and coordinates `v[0] = -1/2`, `v[4] = -1/2`,
`v[10] = -1/2`, `v[11] = 0`, `v[13] = 1/2` exactly. -/
theorem C1_feature_hashing_regression :
    countsketchNormalized [0x1234, 0xBEEF] 16 3
      [-(1/2), 0, 0, 0, -(1/2), 0, 0, 0, 0, 0, -(1/2), 0, 0, 1/2, 0, 0] ∧
    ([-(1/2), 0, 0, 0, -(1/2), 0, 0, 0, 0, 0, -(1/2), 0, 0, 1/2, 0, 0] : List ℝ).length = 16 ∧
    Real.sqrt
      ((([-(1/2), 0, 0, 0, -(1/2), 0, 0, 0, 0, 0, -(1/2), 0, 0, 1/2, 0, 0] : List ℝ).map
        (fun x : ℝ => x ^ 2)).sum) = 1 ∧
    ([-(1/2), 0, 0, 0, -(1/2), 0, 0, 0, 0, 0, -(1/2), 0, 0, 1/2, 0, 0] : List ℝ).getD 0 0 = -(1/2) ∧
    ([-(1/2), 0, 0, 0, -(1/2), 0, 0, 0, 0, 0, -(1/2), 0, 0, 1/2, 0, 0] : List ℝ).getD 4 0 = -(1/2) ∧
    ([-(1/2), 0, 0, 0, -(1/2), 0, 0, 0, 0, 0, -(1/2), 0, 0, 1/2, 0, 0] : List ℝ).getD 10 0 = -(1/2) ∧
    ([-(1/2), 0, 0, 0, -(1/2), 0, 0, 0, 0, 0, -(1/2), 0, 0, 1/2, 0, 0] : List ℝ).getD 11 0 = 0 ∧
    ([-(1/2), 0, 0, 0, -(1/2), 0, 0, 0, 0, 0, -(1/2), 0, 0, 1/2, 0, 0] : List ℝ).getD 13 0 = 1/2 := by
  refine ⟨countsketchNormalized_doctest, by norm_num, ?_,
    by norm_num, by norm_num, by norm_num, by norm_num, by norm_num⟩
  have hsum :
      ((([-(1/2), 0, 0, 0, -(1/2), 0, 0, 0, 0, 0, -(1/2), 0, 0, 1/2, 0, 0] : List ℝ)).map
        (fun x : ℝ => x ^ 2)).sum = 1 := by
    norm_num
  rw [hsum]
  exact Real.sqrt_one

/-- C2 counterexample: the claim that every invalid-parameter call fails
before any computation is false on the code: a feature-hashing call with
`num_hash_fns = -1` does not fail at all (it returns an all-zero vector),
and a call with an unrecognized method name performs its Sketch
resolutions before raising the error. -/
theorem C2_counterexample :
    vectorize_countsketchE [0x1234] (some 4) (-1) = Except.ok [0, 0, 0, 0] ∧
    vectorizeTrace [0] "bogus" =
      [PipelineEvent.resolveSketch 0,
       PipelineEvent.error "Vectorization method=\x27bogus\x27 is not implemented."] := by
  exact ⟨rfl, rfl⟩

/-- C2 amended: the feature-hashing vectorizer performs no parameter
validation: `dim = 0` silently falls back to the default 4096 (Python
`dim = dim or 4096`); `num_hash_fns <= 0` silently returns the all-zero
vector; only a negative `dim` fails, with the ValueError raised by array
allocation; an empty landmark set returns the empty vector without
error; an unrecognized method name fails with a ValueError, but only
after all Sketch resolutions of the call have been performed. -/
theorem C2_amended_error_handling :
    (∀ (hashes : List Nat) (nf : Int),
      vectorize_countsketchE hashes (some 0) nf =
        vectorize_countsketchE hashes none nf) ∧
    (∀ (hashes : List Nat) (d nf : Int), 0 < d → nf ≤ 0 →
      vectorize_countsketchE hashes (some d) nf =
        Except.ok (List.replicate d.toNat 0)) ∧
    (∀ (hashes : List Nat) (d nf : Int), d < 0 →
      vectorize_countsketchE hashes (some d) nf =
        Except.error "negative dimensions are not allowed") ∧
    (∀ (S L : Type) (sim : S → L → ℚ) (q : S),
      vectorize_landmark sim q ([] : List L) = []) ∧
    (∀ (Q : Type) (queries : List Q) (method : String),
      method ≠ "landmark" → method ≠ "countsketch" →
      vectorizeTrace queries method =
        queries.map PipelineEvent.resolveSketch ++
          [PipelineEvent.error
            ("Vectorization method=\x27" ++ method ++ "\x27 is not implemented.")]) := by
  refine ⟨fun hashes nf => rfl, ?_, ?_, fun S L sim q => rfl, ?_⟩
  · intro hashes d nf hd hnf
    unfold vectorize_countsketchE
    simp only [if_neg (by omega : ¬d = 0), if_neg (by omega : ¬d < 0)]
    have h0 : nf.toNat = 0 := Int.toNat_of_nonpos hnf
    rw [h0]
    unfold countsketchAcc
    rw [foldl_addHash_zero_nf]
  · intro hashes d nf hd
    unfold vectorize_countsketchE
    simp only [if_neg (by omega : ¬d = 0), if_pos hd]
  · intro Q queries method h1 h2
    unfold vectorizeTrace
    rw [if_neg (not_or.mpr ⟨h1, h2⟩)]

/-- C2 amended, witness instances: `num_hash_fns = -1` with `dim = 4`
returns the zero vector; `dim = -3` fails with the allocation error; an
unknown method errors only after resolving its query. -/
theorem C2_amended_witness :
    vectorize_countsketchE [5] (some 4) (-1) =
      Except.ok (List.replicate (4 : Int).toNat 0) ∧
    vectorize_countsketchE [5] (some (-3)) 2 =
      Except.error "negative dimensions are not allowed" ∧
    vectorizeTrace [7] "bogus" =
      [7].map PipelineEvent.resolveSketch ++
        [PipelineEvent.error
          ("Vectorization method=\x27" ++ "bogus" ++ "\x27 is not implemented.")] :=
  ⟨C2_amended_error_handling.2.1 [5] 4 (-1) (by norm_num) (by norm_num),
   C2_amended_error_handling.2.2.1 [5] (-3) 2 (by norm_num),
   C2_amended_error_handling.2.2.2.2 Nat [7] "bogus" (by decide) (by decide)⟩

/-- C3 counterexample: the fingerprint set `{1}` with the valid
parameters `dim = 1`, `num_hash_fns = 2` accumulates two contributions of
opposite sign into the single bucket, so the vectorizer returns the zero
vector, whose Euclidean norm is 0, not 1. -/
theorem C3_counterexample :
    countsketchAcc [1] 1 2 = [0] ∧
    countsketchNormalized [1] 1 2 [(0 : ℝ)] ∧
    Real.sqrt ((([(0 : ℝ)]).map (fun x : ℝ => x ^ 2)).sum) ≠ 1 := by
  have hacc : countsketchAcc [1] 1 2 = [0] := by decide
  refine ⟨hacc, ⟨?_, ?_⟩, ?_⟩
  · intro h0
    rw [hacc] at h0
    exact absurd h0 (by decide)
  · intro _
    rw [hacc]
    norm_num
  · have hsum : (([(0 : ℝ)]).map (fun x : ℝ => x ^ 2)).sum = 0 := by norm_num
    rw [hsum, Real.sqrt_zero]
    norm_num

/-- C3 amended: for every nonempty fingerprint set and every valid pair
`(dim > 0, num_hash_fns > 0)`, the feature-hashing vectorizer returns a
vector of length `dim`, and its Euclidean norm is exactly 1 whenever the
accumulated vector is nonzero (the all-zero accumulated vector is
returned unnormalized, per the zero-norm guard). -/
theorem C3_amended_unit_norm (hashes : List Nat) (dim nf : Nat)
    (hd : 0 < dim) (hnf : 0 < nf) (hne : hashes ≠ []) (w : List ℝ)
    (hw : countsketchNormalized hashes dim nf w) :
    w.length = dim ∧
    (0 < l2normSq (countsketchAcc hashes dim nf) →
      Real.sqrt ((w.map (fun x : ℝ => x ^ 2)).sum) = 1) := by
  rcases Classical.em (0 < l2normSq (countsketchAcc hashes dim nf)) with h | h
  · rw [hw.1 h]
    refine ⟨?_, fun _ => normalized_unit_norm _ h⟩
    rw [List.length_map, countsketchAcc_length]
  · rw [hw.2 h]
    refine ⟨?_, fun h0 => absurd h0 h⟩
    rw [List.length_map, countsketchAcc_length]

/-- C3 amended, witness: the doctest instance has a nonzero accumulated
vector and its normalized vector has Euclidean norm exactly 1. -/
theorem C3_amended_witness :
    Real.sqrt
      ((([-(1/2), 0, 0, 0, -(1/2), 0, 0, 0, 0, 0, -(1/2), 0, 0, 1/2, 0, 0] : List ℝ).map
        (fun x : ℝ => x ^ 2)).sum) = 1 :=
  (C3_amended_unit_norm [0x1234, 0xBEEF] 16 3 (by norm_num) (by norm_num)
    (by decide) _ countsketchNormalized_doctest).2
    (by rw [countsketchAcc_doctest]; decide)

/-- C4: For the empty fingerprint set and every valid
`(dim > 0, num_hash_fns > 0)`, the accumulated vector is the all-zero
vector of length `dim`, its norm is not strictly positive — so the
guarded normalization division is never executed, and no
division-by-zero fault can occur — and the returned vector is exactly
the all-zero real vector of length `dim`. -/
theorem C4_empty_sketch_zero_vector (dim nf : Nat) (hd : 0 < dim) (hnf : 0 < nf) :
    countsketchAcc [] dim nf = List.replicate dim 0 ∧
    ¬ 0 < l2normSq (countsketchAcc [] dim nf) ∧
    ∀ w : List ℝ,
      countsketchNormalized [] dim nf w ↔ w = List.replicate dim (0 : ℝ) := by
  have hguard : ¬ 0 < l2normSq (countsketchAcc [] dim nf) := by
    show ¬ 0 < l2normSq (List.replicate dim 0)
    rw [l2normSq_replicate_zero]
    exact lt_irrefl 0
  refine ⟨rfl, hguard, fun w => ?_⟩
  have hmap : (countsketchAcc [] dim nf).map (fun x : Int => (x : ℝ)) =
      List.replicate dim (0 : ℝ) := by
    show (List.replicate dim (0 : Int)).map (fun x : Int => (x : ℝ)) = _
    rw [List.map_replicate]
    norm_num
  constructor
  · intro hw
    rw [hw.2 hguard, hmap]
  · intro hw
    exact ⟨fun h0 => absurd h0 hguard, fun _ => by rw [hw, hmap]⟩

/-- C4 witness: at `dim = 16`, `num_hash_fns = 3` the empty sketch
normalizes to the all-zero real vector of length 16. -/
theorem C4_witness :
    countsketchNormalized [] 16 3 (List.replicate 16 (0 : ℝ)) :=
  ((C4_empty_sketch_zero_vector 16 3 (by norm_num) (by norm_num)).2.2
    (List.replicate 16 (0 : ℝ))).mpr rfl

/-- C5: Two runs of the feature-hashing vectorizer on the same
`(fingerprint set, dim, num_hash_fns)` tuple produce identical vectors
regardless of the order in which the set is enumerated: the accumulated
vectors are equal, and any normalized output of the one run is a
normalized output of the other. -/
theorem C5_iteration_order_independence (l1 l2 : List Nat) (dim nf : Nat)
    (hp : l1.Perm l2) :
    countsketchAcc l1 dim nf = countsketchAcc l2 dim nf ∧
    ∀ w : List ℝ,
      countsketchNormalized l1 dim nf w ↔ countsketchNormalized l2 dim nf w := by
  have h := countsketchAcc_perm l1 l2 dim nf hp
  refine ⟨h, fun w => ?_⟩
  unfold countsketchNormalized
  rw [h]

/-- C5 witness: the doctest fingerprint set enumerated in the two
possible orders accumulates the same vector. -/
theorem C5_witness :
    countsketchAcc [0x1234, 0xBEEF] 16 3 = countsketchAcc [0xBEEF, 0x1234] 16 3 :=
  (C5_iteration_order_independence [0x1234, 0xBEEF] [0xBEEF, 0x1234] 16 3
    (by decide)).1

/-- C6: For `h = mix(0x1234) = 11969492833970939502`:
`bucket_index(h, 1024, 0) = 635`, `bucket_sign(h, 0) = +1`;
`bucket_index(h, 1024, 1) = 580`, `bucket_sign(h, 1) = -1`;
`bucket_index(h, 10, 2) = 3`, `bucket_sign(h, 2) = -1`; and for every
64-bit `h`, every `dim > 0` and every salt, `bucket_index` lies in
`[0, dim)` and `bucket_sign` is `+1` or `-1`. -/
theorem C6_bucket_contract :
    mix_u64 0x1234 = 11969492833970939502 ∧
    bucket_index 11969492833970939502 1024 0 = 635 ∧
    bucket_sign 11969492833970939502 0 = 1 ∧
    bucket_index 11969492833970939502 1024 1 = 580 ∧
    bucket_sign 11969492833970939502 1 = -1 ∧
    bucket_index 11969492833970939502 10 2 = 3 ∧
    bucket_sign 11969492833970939502 2 = -1 ∧
    (∀ h dim salt : Nat, h < 2 ^ 64 → 0 < dim → bucket_index h dim salt < dim) ∧
    (∀ h salt : Nat, h < 2 ^ 64 →
      bucket_sign h salt = 1 ∨ bucket_sign h salt = -1) := by
  refine ⟨by decide, by decide, by decide, by decide, by decide, by decide, by decide,
    fun h dim salt _ hd => bucket_index_lt h dim salt hd,
    fun h salt _ => ?_⟩
  rw [bucket_sign_eq]
  split
  · exact Or.inl rfl
  · exact Or.inr rfl

/-- C6 witness: a concrete in-range bucket index and a concrete sign in
`{+1, -1}`. -/
theorem C6_witness :
    bucket_index 123 10 0 < 10 ∧
    (bucket_sign 123 0 = 1 ∨ bucket_sign 123 0 = -1) :=
  ⟨C6_bucket_contract.2.2.2.2.2.2.2.1 123 10 0 (by norm_num) (by norm_num),
   C6_bucket_contract.2.2.2.2.2.2.2.2 123 0 (by norm_num)⟩

/-- C7: The hash mixer is a total function on 64-bit inputs — every
output is again a 64-bit value — satisfying the exact literal values
`mix(0) = 0x0`, `mix(1) = 0xb456bcfc34c2cb2c` and
`mix(0x123456789ABCDEF0) = 0x18b8c062f6f42398`. -/
theorem C7_mix_literals_total :
    mix_u64 0 = 0x0 ∧
    mix_u64 1 = 0xb456bcfc34c2cb2c ∧
    mix_u64 0x123456789ABCDEF0 = 0x18b8c062f6f42398 ∧
    ∀ x : Nat, mix_u64 x < 2 ^ 64 := by
  refine ⟨by decide, by decide, by decide, fun x => ?_⟩
  have h : mix_u64 x ≤ U64 := Nat.and_le_right
  calc mix_u64 x ≤ U64 := h
    _ < 2 ^ 64 := by norm_num [U64]

/-- C8: For every query sketch and every nonempty landmark sequence whose
similarity scores lie in `[0, 1]`, the landmark vectorizer returns a
vector whose length is the number of landmarks, whose `k`-th coordinate
is exactly the similarity of the query to the `k`-th landmark (no
normalization applied), with every coordinate in `[0, 1]`. -/
theorem C8_landmark_vector (S L : Type) (sim : S → L → ℚ) (query : S)
    (landmarks : List L) (hne : landmarks ≠ [])
    (hb : ∀ l ∈ landmarks, 0 ≤ sim query l ∧ sim query l ≤ 1) :
    (vectorize_landmark sim query landmarks).length = landmarks.length ∧
    ∀ (k : Nat) (hk : k < landmarks.length),
      (vectorize_landmark sim query landmarks).getD k 0 =
        sim query (landmarks.get ⟨k, hk⟩) ∧
      0 ≤ (vectorize_landmark sim query landmarks).getD k 0 ∧
      (vectorize_landmark sim query landmarks).getD k 0 ≤ 1 := by
  have hlen : (vectorize_landmark sim query landmarks).length = landmarks.length :=
    List.length_map ..
  refine ⟨hlen, fun k hk => ?_⟩
  have hk' : k < (vectorize_landmark sim query landmarks).length := by
    rw [hlen]; exact hk
  have hval : (vectorize_landmark sim query landmarks).getD k 0 =
      sim query (landmarks.get ⟨k, hk⟩) := by
    rw [getD_of_lt _ _ _ hk']
    show (landmarks.map (sim query))[k] = _
    rw [List.getElem_map, List.get_eq_getElem]
  have hmem : landmarks.get ⟨k, hk⟩ ∈ landmarks := List.get_mem ..
  exact ⟨hval, by rw [hval]; exact (hb _ hmem).1, by rw [hval]; exact (hb _ hmem).2⟩

/-- C8 witness: one landmark with similarity 1/2 yields the vector
`[1/2]`. -/
theorem C8_witness :
    (vectorize_landmark (fun _ _ : Nat => (1/2 : ℚ)) 0 [0]).getD 0 0 = 1/2 :=
  ((C8_landmark_vector Nat Nat (fun _ _ => (1/2 : ℚ)) 0 [0] (by decide)
    (fun _ _ => by norm_num)).2 0 (by norm_num)).1

/-- C9: For every input batch and every valid `(projection_dim > 0, seed)`
the random projector is a pure function of the batch, the projection
dimension and the seed alone: its output is unchanged under arbitrary
changes of ambient process-global RNG state (the code seeds a fresh
generator from `seed` exclusively), and equals the batch multiplied by
the matrix drawn from that seeded generator. -/
theorem C9_projection_seed_determinism (G1 G2 : Type)
    (rngNormal : Int → Nat → Nat → List (List ℚ)) (g1 : G1) (g2 : G2)
    (vectors : List (List ℚ)) (projection : Nat) (seed : Int)
    (hp : 0 < projection) :
    projectBatch rngNormal g1 vectors projection seed =
      projectBatch rngNormal g2 vectors projection seed ∧
    projectBatch rngNormal g1 vectors projection seed =
      vectors.map (fun row =>
        matMulRow row (rngNormal seed (vectors.headD []).length projection)
          projection) :=
  ⟨rfl, rfl⟩

/-- C9 witness: a concrete projection call is invariant under a change of
ambient state. -/
theorem C9_witness :
    projectBatch (fun _ _ _ => [[1]]) (0 : Nat) [[2]] 1 42 =
      projectBatch (fun _ _ _ => [[1]]) "other state" [[2]] 1 42 :=
  (C9_projection_seed_determinism Nat String (fun _ _ _ => [[1]]) 0 "other state"
    [[2]] 1 42 (by norm_num)).1

/-- C10: The feature-hashing vectorizer reads only the fingerprint keys
of a sketch, never the stored abundance values: two sketches whose key
sets coincide (in any enumeration order) produce identical vectors for
the same `(dim, num_hash_fns)`. -/
theorem C10_abundance_independence (s1 s2 : List (Nat × Int)) (dim nf : Nat)
    (hkeys : (s1.map Prod.fst).Perm (s2.map Prod.fst)) :
    vectorize_countsketch s1 dim nf = vectorize_countsketch s2 dim nf := by
  unfold vectorize_countsketch
  exact countsketchAcc_perm _ _ dim nf hkeys

/-- C10 witness: the same key with abundances 1 and 99 vectorizes
identically. -/
theorem C10_witness :
    vectorize_countsketch [(0x1234, 1)] 8 2 =
      vectorize_countsketch [(0x1234, 99)] 8 2 :=
  C10_abundance_independence [(0x1234, 1)] [(0x1234, 99)] 8 2 (by decide)

end Vectome
